import Mathlib

/-!
Verification of the cgrep repository (src/cgrep.py, the python-2 version,
called V3 after its version string, and src/cgrep5.py, the python-3 rewrite,
called V5) against its natural-language specification.

Strings are modelled as lists of characters; a file is modelled as the list
of lines that the python line iteration yields, each line carrying its trailing
newline character except possibly the last.  Python slices translate as:
s[:n] = take n, s[n:] = drop n, s[:-1] = dropLast, s[a:b] = (drop a).take (b-a)
(python slices clamp out-of-range bounds exactly as take/drop do on Nat).
-/

namespace Cgrep

/-- A text string modelled as a list of characters. -/
abbrev Str := List Char

/-- A result record of grep_file: (lineNumber, prefixText, matchedText,
suffixText).  Context records carry their text in the second slot and have
empty third and fourth slots. -/
abbrev MatchRec := Nat × Str × Str × Str

/-- Leftmost occurrence search for a literal pattern: returns the span
(start, end) of the first occurrence of pat in the scanned text, scanning
from offset i.  This models the python re-module pattern.search for a pattern
with no metacharacters (the only kind the concrete inputs below use). -/
def litSearchAux (pat : Str) : Str → Nat → Option (Nat × Nat)
  | s, i =>
    if pat.isPrefixOf s then some (i, i + pat.length)
    else
      match s with
      | [] => none
      | _ :: t => litSearchAux pat t (i + 1)

/-- pattern.search: leftmost match of the literal pattern pat in s. -/
def litSearch (pat s : Str) : Option (Nat × Nat) := litSearchAux pat s 0

/-- _max_line_part in both versions. -/
def maxLinePart : Nat := 40

/-- The ellipsis marker "..." used by the truncation code. -/
def ellipsis : Str := ['.', '.', '.']

/-- cgrep.py line 182-183 and cgrep5.py line 126-127:
if len(a) > 40 then a = "..." + a[len(a)-40:]. -/
def truncA (a : Str) : Str :=
  if a.length > maxLinePart then ellipsis ++ a.drop (a.length - maxLinePart) else a

/-- cgrep.py line 184-185 and cgrep5.py line 128-129:
if len(c) > 40 then c = c[:40] + "...". -/
def truncC (c : Str) : Str :=
  if c.length > maxLinePart then c.take maxLinePart ++ ellipsis else c

/-- The loop of grep_file from cgrep.py (lines 170-193).  State: remaining
lines, line_count so far, and kp (the stored previous-line record).  On a
match the line splits at the span (s, e) into a = ln[:s] (display-truncated),
b = ln[s:e], c = ln[e:-1] (display-truncated); with context enabled the body
appends kp, the match record, and the next physical line pulled off the
iterator by next(fd, ''), which is therefore never itself tested and never
increments line_count.  kp is updated to (line_count, ln[:-1], "", "") at the
end of every iterated line. -/
def grepV3Go (search : Str → Option (Nat × Nat)) (ctx : Bool) :
    List Str → Nat → MatchRec → List MatchRec
  | [], _, _ => []
  | ln :: rest, lc, kp =>
    let lc1 := lc + 1
    match search ln with
    | none => grepV3Go search ctx rest lc1 (lc1, ln.dropLast, [], [])
    | some (s, e) =>
      let a := truncA (ln.take s)
      let b := (ln.drop s).take (e - s)
      let c := truncC ((ln.drop e).dropLast)
      if ctx then
        match rest with
        | [] => [kp, (lc1, a, b, c), (lc1 + 1, [], [], [])]
        | nx :: rest2 =>
            kp :: (lc1, a, b, c) :: (lc1 + 1, nx, [], []) ::
              grepV3Go search ctx rest2 lc1 (lc1, ln.dropLast, [], [])
      else (lc1, a, b, c) :: grepV3Go search ctx rest lc1 (lc1, ln.dropLast, [], [])

/-- grep_file of cgrep.py: line_count starts at 0 and kp starts as
(0, "", "", ""). -/
def grepFileV3 (ctx : Bool) (search : Str → Option (Nat × Nat))
    (lines : List Str) : List MatchRec :=
  grepV3Go search ctx lines 0 (0, [], [], [])

/-- The loop of grep_file from cgrep5.py (lines 155-172).  Differences from
V3: no truncation here (print_good_lines truncates at display time), the
previous-line record prev_ln is emitted only when line_count > 1, and prev_ln
stores the full line ln (newline included). -/
def grepV5Go (search : Str → Option (Nat × Nat)) (ctx : Bool) :
    List Str → Nat → MatchRec → List MatchRec
  | [], _, _ => []
  | ln :: rest, lc, prev =>
    let lc1 := lc + 1
    match search ln with
    | none => grepV5Go search ctx rest lc1 (lc1, ln, [], [])
    | some (s, e) =>
      let a := ln.take s
      let b := (ln.drop s).take (e - s)
      let c := (ln.drop e).dropLast
      let base := (if ctx ∧ 1 < lc1 then [prev] else []) ++ [(lc1, a, b, c)]
      if ctx then
        match rest with
        | [] => base ++ [(lc1 + 1, [], [], [])]
        | nx :: rest2 =>
            base ++ (lc1 + 1, nx, [], []) ::
              grepV5Go search ctx rest2 lc1 (lc1, ln, [], [])
      else base ++ grepV5Go search ctx rest lc1 (lc1, ln, [], [])

/-- grep_file of cgrep5.py: line_count starts at 0 and prev_ln starts as
(0, "", "", ""). -/
def grepFileV5 (ctx : Bool) (search : Str → Option (Nat × Nat))
    (lines : List Str) : List MatchRec :=
  grepV5Go search ctx lines 0 (0, [], [], [])

/-- print_good_lines of cgrep5.py (lines 120-135), restricted to the parts it
prints for one record: when b or c is nonempty the prefix and suffix are
display-truncated, otherwise the record prints verbatim. -/
def renderPartsV5 (r : MatchRec) : MatchRec :=
  match r with
  | (n, a, b, c) => if b ≠ [] ∨ c ≠ [] then (n, truncA a, b, truncC c) else (n, a, b, c)

/-- The match record V3 builds for a line ln numbered lc1 whose match span is
(s, e): prefix and suffix display-truncated at record-construction time. -/
def mkMatchV3 (lc1 : Nat) (ln : Str) (s e : Nat) : MatchRec :=
  (lc1, truncA (ln.take s), (ln.drop s).take (e - s), truncC ((ln.drop e).dropLast))

/-- The match record V5 builds (no truncation at record time). -/
def mkMatchV5 (lc1 : Nat) (ln : Str) (s e : Nat) : MatchRec :=
  (lc1, ln.take s, (ln.drop s).take (e - s), (ln.drop e).dropLast)

/-- Context-disabled scan written as one block per line: a line numbered lc+1
contributes its single match record when it matches and nothing otherwise.
A second formulation of the V3 loop, to be proved equal to it. -/
def noCtxRecsV3 (search : Str → Option (Nat × Nat)) : List Str → Nat → List MatchRec
  | [], _ => []
  | ln :: rest, lc =>
    (match search ln with
     | none => []
     | some (s, e) => [mkMatchV3 (lc + 1) ln s e]) ++ noCtxRecsV3 search rest (lc + 1)

/-- Context-disabled scan of V5 written as one block per line. -/
def noCtxRecsV5 (search : Str → Option (Nat × Nat)) : List Str → Nat → List MatchRec
  | [], _ => []
  | ln :: rest, lc =>
    (match search ln with
     | none => []
     | some (s, e) => [mkMatchV5 (lc + 1) ln s e]) ++ noCtxRecsV5 search rest (lc + 1)

/-- The line numbers that a context-disabled scan reports, starting from
counter value lc: the shape shared by noCtxRecsV3 and noCtxRecsV5. -/
def matchLineNums (search : Str → Option (Nat × Nat)) : List Str → Nat → List Nat
  | [], _ => []
  | ln :: rest, lc =>
    (match search ln with
     | none => []
     | some _ => [lc + 1]) ++ matchLineNums search rest (lc + 1)

/-- Context-enabled V3 scan written as one three-record block per tested
matching line: the stored previous-record kp, the match record, then the
following physical line (or an empty record at end of file); the following
line is then skipped (consumed, never tested).  A second formulation of the
V3 loop, to be proved equal to it. -/
def ctxBlocksV3 (search : Str → Option (Nat × Nat)) :
    List Str → Nat → MatchRec → List MatchRec
  | [], _, _ => []
  | ln :: rest, lc, kp =>
    let lc1 := lc + 1
    match search ln with
    | none => ctxBlocksV3 search rest lc1 (lc1, ln.dropLast, [], [])
    | some (s, e) =>
        [kp, mkMatchV3 lc1 ln s e, (lc1 + 1, rest.headD [], [], [])] ++
          ctxBlocksV3 search rest.tail lc1 (lc1, ln.dropLast, [], [])
  termination_by l _ _ => l.length
  decreasing_by
    all_goals simp only [List.length_cons]
    · omega
    · have := List.length_tail rest
      omega

/-- Context-enabled V5 scan written as blocks: the stored previous record is
emitted only when the counter value of the matching line exceeds 1, then the match
record, then the following physical line (or an empty record at end of file),
which is then skipped. -/
def ctxBlocksV5 (search : Str → Option (Nat × Nat)) :
    List Str → Nat → MatchRec → List MatchRec
  | [], _, _ => []
  | ln :: rest, lc, prev =>
    let lc1 := lc + 1
    match search ln with
    | none => ctxBlocksV5 search rest lc1 (lc1, ln, [], [])
    | some (s, e) =>
        (if 1 < lc1 then [prev] else []) ++
          [mkMatchV5 lc1 ln s e, (lc1 + 1, rest.headD [], [], [])] ++
          ctxBlocksV5 search rest.tail lc1 (lc1, ln, [], [])
  termination_by l _ _ => l.length
  decreasing_by
    all_goals simp only [List.length_cons]
    · omega
    · have := List.length_tail rest
      omega

/-- The 0-based physical indices of the lines that are tested and match
during a context-enabled scan: after a tested match at physical index i, the
line at index i+1 is consumed as after-context and the scan resumes at index
i+2.  This recursion mirrors the iterator consumption shared by both
grep_file versions. -/
def ctxTestedMatches (search : Str → Option (Nat × Nat)) : List Str → Nat → List Nat
  | [], _ => []
  | ln :: rest, i =>
    match search ln with
    | none => ctxTestedMatches search rest (i + 1)
    | some _ =>
      match rest with
      | [] => [i]
      | _ :: rest2 => i :: ctxTestedMatches search rest2 (i + 2)

theorem litSearchAux_some (pat : Str) : ∀ (s : Str) (i a b : Nat),
    litSearchAux pat s i = some (a, b) →
      i ≤ a ∧ b = a + pat.length ∧ pat.isPrefixOf (s.drop (a - i)) = true ∧
        ∀ j, i ≤ j → j < a → pat.isPrefixOf (s.drop (j - i)) = false := by
  intro s
  induction s with
  | nil =>
    intro i a b h
    simp only [litSearchAux] at h
    by_cases hp : pat.isPrefixOf [] = true
    · simp [hp] at h
      obtain ⟨ha, hb⟩ := h
      subst ha
      refine ⟨Nat.le_refl _, hb.symm, by simpa using hp, ?_⟩
      intro j h1 h2
      omega
    · simp [hp] at h
  | cons c t ih =>
    intro i a b h
    simp only [litSearchAux] at h
    by_cases hp : pat.isPrefixOf (c :: t) = true
    · simp [hp] at h
      obtain ⟨ha, hb⟩ := h
      subst ha
      refine ⟨Nat.le_refl _, hb.symm, by simpa using hp, ?_⟩
      intro j h1 h2
      omega
    · simp [hp] at h
      obtain ⟨h1, h2, h3, h4⟩ := ih (i + 1) a b h
      refine ⟨by omega, h2, ?_, ?_⟩
      · have hd : a - i = (a - (i + 1)) + 1 := by omega
        rw [hd, List.drop_succ_cons]
        exact h3
      · intro j hj1 hj2
        rcases Nat.eq_or_lt_of_le hj1 with hj | hj
        · subst hj
          simpa using Bool.of_not_eq_true hp
        · have hd : j - i = (j - (i + 1)) + 1 := by omega
          rw [hd, List.drop_succ_cons]
          exact h4 j hj hj2

theorem litSearch_some (pat s : Str) (a b : Nat) (h : litSearch pat s = some (a, b)) :
    b = a + pat.length ∧ pat.isPrefixOf (s.drop a) = true ∧
      ∀ j, j < a → pat.isPrefixOf (s.drop j) = false := by
  obtain ⟨h1, h2, h3, h4⟩ := litSearchAux_some pat s 0 a b h
  refine ⟨h2, by simpa using h3, ?_⟩
  intro j hj
  simpa using h4 j (Nat.zero_le j) hj

/-- The context-disabled V3 loop is the per-line block scan. -/
theorem grepV3Go_false (search : Str → Option (Nat × Nat)) :
    ∀ (l : List Str) (lc : Nat) (kp : MatchRec),
      grepV3Go search false l lc kp = noCtxRecsV3 search l lc := by
  intro l
  induction l with
  | nil => intro lc kp; rfl
  | cons ln rest ih =>
    intro lc kp
    cases h : search ln with
    | none => simp [grepV3Go, noCtxRecsV3, h, ih]
    | some se =>
      cases se with
      | mk s e => simp [grepV3Go, noCtxRecsV3, h, ih, mkMatchV3]

/-- The context-disabled V5 loop is the per-line block scan. -/
theorem grepV5Go_false (search : Str → Option (Nat × Nat)) :
    ∀ (l : List Str) (lc : Nat) (prev : MatchRec),
      grepV5Go search false l lc prev = noCtxRecsV5 search l lc := by
  intro l
  induction l with
  | nil => intro lc prev; rfl
  | cons ln rest ih =>
    intro lc prev
    cases h : search ln with
    | none => simp [grepV5Go, noCtxRecsV5, h, ih]
    | some se =>
      cases se with
      | mk s e => simp [grepV5Go, noCtxRecsV5, h, ih, mkMatchV5]

/-- The context-enabled V3 loop equals its block formulation. -/
theorem grepV3Go_true (search : Str → Option (Nat × Nat)) :
    ∀ (n : Nat) (l : List Str), l.length ≤ n →
      ∀ (lc : Nat) (kp : MatchRec),
        grepV3Go search true l lc kp = ctxBlocksV3 search l lc kp := by
  intro n
  induction n with
  | zero =>
    intro l hl lc kp
    have hnil : l = [] := List.eq_nil_of_length_eq_zero (Nat.le_zero.mp hl)
    subst hnil
    simp [grepV3Go, ctxBlocksV3]
  | succ n ih =>
    intro l hl lc kp
    cases l with
    | nil => simp [grepV3Go, ctxBlocksV3]
    | cons ln rest =>
      have hr : rest.length ≤ n := by
        simp only [List.length_cons] at hl
        omega
      cases h : search ln with
      | none =>
        simp only [grepV3Go, ctxBlocksV3, h]
        exact ih rest hr _ _
      | some se =>
        cases se with
        | mk s e =>
          cases rest with
          | nil => simp [grepV3Go, ctxBlocksV3, h, mkMatchV3]
          | cons nx rest2 =>
            have hr2 : rest2.length ≤ n := by
              simp only [List.length_cons] at hr ⊢
              omega
            simp only [grepV3Go, ctxBlocksV3, h, List.headD, List.tail]
            simp [mkMatchV3, ih rest2 hr2]

/-- The context-enabled V5 loop equals its block formulation. -/
theorem grepV5Go_true (search : Str → Option (Nat × Nat)) :
    ∀ (n : Nat) (l : List Str), l.length ≤ n →
      ∀ (lc : Nat) (prev : MatchRec),
        grepV5Go search true l lc prev = ctxBlocksV5 search l lc prev := by
  intro n
  induction n with
  | zero =>
    intro l hl lc prev
    have hnil : l = [] := List.eq_nil_of_length_eq_zero (Nat.le_zero.mp hl)
    subst hnil
    simp [grepV5Go, ctxBlocksV5]
  | succ n ih =>
    intro l hl lc prev
    cases l with
    | nil => simp [grepV5Go, ctxBlocksV5]
    | cons ln rest =>
      have hr : rest.length ≤ n := by
        simp only [List.length_cons] at hl
        omega
      cases h : search ln with
      | none =>
        simp only [grepV5Go, ctxBlocksV5, h]
        exact ih rest hr _ _
      | some se =>
        cases se with
        | mk s e =>
          cases rest with
          | nil => simp [grepV5Go, ctxBlocksV5, h, mkMatchV5]
          | cons nx rest2 =>
            have hr2 : rest2.length ≤ n := by
              simp only [List.length_cons] at hr ⊢
              omega
            simp only [grepV5Go, ctxBlocksV5, h, List.headD, List.tail]
            simp [mkMatchV5, ih rest2 hr2]

theorem map_fst_noCtxRecsV3 (search : Str → Option (Nat × Nat)) :
    ∀ (l : List Str) (lc : Nat),
      (noCtxRecsV3 search l lc).map Prod.fst = matchLineNums search l lc := by
  intro l
  induction l with
  | nil => intro lc; rfl
  | cons ln rest ih =>
    intro lc
    cases h : search ln with
    | none => simp [noCtxRecsV3, matchLineNums, h, ih]
    | some se =>
      cases se with
      | mk s e => simp [noCtxRecsV3, matchLineNums, h, ih, mkMatchV3]

theorem map_fst_noCtxRecsV5 (search : Str → Option (Nat × Nat)) :
    ∀ (l : List Str) (lc : Nat),
      (noCtxRecsV5 search l lc).map Prod.fst = matchLineNums search l lc := by
  intro l
  induction l with
  | nil => intro lc; rfl
  | cons ln rest ih =>
    intro lc
    cases h : search ln with
    | none => simp [noCtxRecsV5, matchLineNums, h, ih]
    | some se =>
      cases se with
      | mk s e => simp [noCtxRecsV5, matchLineNums, h, ih, mkMatchV5]

theorem matchLineNums_lb (search : Str → Option (Nat × Nat)) :
    ∀ (l : List Str) (lc n : Nat), n ∈ matchLineNums search l lc → lc < n := by
  intro l
  induction l with
  | nil => intro lc n h; simp [matchLineNums] at h
  | cons ln rest ih =>
    intro lc n h
    cases hs : search ln with
    | none =>
      simp only [matchLineNums, hs, List.nil_append] at h
      have := ih (lc + 1) n h
      omega
    | some se =>
      simp only [matchLineNums, hs, List.singleton_append, List.mem_cons] at h
      rcases h with h | h
      · omega
      · have := ih (lc + 1) n h
        omega

theorem matchLineNums_sorted (search : Str → Option (Nat × Nat)) :
    ∀ (l : List Str) (lc : Nat), (matchLineNums search l lc).Pairwise (· < ·) := by
  intro l
  induction l with
  | nil => intro lc; simp [matchLineNums]
  | cons ln rest ih =>
    intro lc
    cases hs : search ln with
    | none => simpa [matchLineNums, hs] using ih (lc + 1)
    | some se =>
      simp only [matchLineNums, hs, List.singleton_append]
      refine List.Pairwise.cons ?_ (ih (lc + 1))
      intro n hn
      have := matchLineNums_lb search rest (lc + 1) n hn
      omega

theorem length_noCtxRecsV5 (search : Str → Option (Nat × Nat)) :
    ∀ (l : List Str) (lc : Nat),
      (noCtxRecsV5 search l lc).length = l.countP (fun ln => (search ln).isSome) := by
  intro l
  induction l with
  | nil => intro lc; rfl
  | cons ln rest ih =>
    intro lc
    cases h : search ln with
    | none => simp [noCtxRecsV5, List.countP_cons, h, ih]
    | some se =>
      cases se with
      | mk s e => simp [noCtxRecsV5, List.countP_cons, h, ih]

/-- Every record of the context-disabled V5 scan comes from the matching line
at some physical index i, carries line number lc + i + 1 and is split at the
span the search returned for that line. -/
theorem mem_noCtxRecsV5 (search : Str → Option (Nat × Nat)) :
    ∀ (l : List Str) (lc : Nat) (r : MatchRec), r ∈ noCtxRecsV5 search l lc →
      ∃ i, ∃ hi : i < l.length, ∃ s e,
        search (l.get ⟨i, hi⟩) = some (s, e) ∧
          r = mkMatchV5 (lc + i + 1) (l.get ⟨i, hi⟩) s e := by
  intro l
  induction l with
  | nil => intro lc r h; simp [noCtxRecsV5] at h
  | cons ln rest ih =>
    intro lc r h
    cases hs : search ln with
    | none =>
      simp only [noCtxRecsV5, hs, List.nil_append] at h
      obtain ⟨i, hi, s, e, h1, h2⟩ := ih (lc + 1) r h
      have hnum : lc + 1 + i + 1 = lc + (i + 1) + 1 := by omega
      rw [hnum] at h2
      exact ⟨i + 1, Nat.succ_lt_succ hi, s, e, h1, h2⟩
    | some se =>
      cases se with
      | mk s e =>
        simp only [noCtxRecsV5, hs, List.singleton_append, List.mem_cons] at h
        rcases h with h | h
        · exact ⟨0, Nat.succ_pos _, s, e, by simpa using hs, by simpa using h⟩
        · obtain ⟨i, hi, s2, e2, h1, h2⟩ := ih (lc + 1) r h
          have hnum : lc + 1 + i + 1 = lc + (i + 1) + 1 := by omega
          rw [hnum] at h2
          exact ⟨i + 1, Nat.succ_lt_succ hi, s2, e2, h1, h2⟩

/-- Count of match records (records with a nonempty matched-text slot). -/
def countMatchRecs (rs : List MatchRec) : Nat :=
  rs.countP (fun r => !(r.2.2.1.isEmpty))

theorem ctxTested_cons_none (search : Str → Option (Nat × Nat)) (ln : Str)
    (rest : List Str) (i : Nat) (hs : search ln = none) :
    ctxTestedMatches search (ln :: rest) i = ctxTestedMatches search rest (i + 1) := by
  cases rest <;> simp [ctxTestedMatches, hs]

theorem ctxTested_singleton_some (search : Str → Option (Nat × Nat)) (ln : Str)
    (i : Nat) (se : Nat × Nat) (hs : search ln = some se) :
    ctxTestedMatches search [ln] i = [i] := by
  simp [ctxTestedMatches, hs]

theorem ctxTested_cons_cons_some (search : Str → Option (Nat × Nat)) (ln x : Str)
    (rest2 : List Str) (i : Nat) (se : Nat × Nat) (hs : search ln = some se) :
    ctxTestedMatches search (ln :: x :: rest2) i =
      i :: ctxTestedMatches search rest2 (i + 2) := by
  simp [ctxTestedMatches, hs]

theorem ctxTestedMatches_lb (search : Str → Option (Nat × Nat)) :
    ∀ (n : Nat) (l : List Str), l.length ≤ n →
      ∀ (i j : Nat), j ∈ ctxTestedMatches search l i → i ≤ j := by
  intro n
  induction n with
  | zero =>
    intro l hl i j h
    have hnil : l = [] := List.eq_nil_of_length_eq_zero (Nat.le_zero.mp hl)
    subst hnil
    simp [ctxTestedMatches] at h
  | succ n ih =>
    intro l hl i j h
    cases l with
    | nil => simp [ctxTestedMatches] at h
    | cons ln rest =>
      have hr : rest.length ≤ n := by
        simp only [List.length_cons] at hl
        omega
      cases hs : search ln with
      | none =>
        rw [ctxTested_cons_none search ln rest i hs] at h
        have := ih rest hr (i + 1) j h
        omega
      | some se =>
        cases rest with
        | nil =>
          rw [ctxTested_singleton_some search ln i se hs] at h
          simp only [List.mem_singleton] at h
          omega
        | cons x rest2 =>
          have hr2 : rest2.length ≤ n := by
            simp only [List.length_cons] at hl
            omega
          rw [ctxTested_cons_cons_some search ln x rest2 i se hs] at h
          simp only [List.mem_cons] at h
          rcases h with h | h
          · omega
          · have := ih rest2 hr2 (i + 2) j h
            omega

/-- After a tested match at physical index j, index j + 1 is consumed as
after-context and never tested, hence never in the tested-match list. -/
theorem ctxTestedMatches_no_succ (search : Str → Option (Nat × Nat)) :
    ∀ (n : Nat) (l : List Str), l.length ≤ n →
      ∀ (i j : Nat), j ∈ ctxTestedMatches search l i →
        j + 1 ∉ ctxTestedMatches search l i := by
  intro n
  induction n with
  | zero =>
    intro l hl i j h
    have hnil : l = [] := List.eq_nil_of_length_eq_zero (Nat.le_zero.mp hl)
    subst hnil
    simp [ctxTestedMatches] at h
  | succ n ih =>
    intro l hl i j h
    cases l with
    | nil => simp [ctxTestedMatches] at h
    | cons ln rest =>
      have hr : rest.length ≤ n := by
        simp only [List.length_cons] at hl
        omega
      cases hs : search ln with
      | none =>
        rw [ctxTested_cons_none search ln rest i hs] at h ⊢
        exact ih rest hr (i + 1) j h
      | some se =>
        cases rest with
        | nil =>
          rw [ctxTested_singleton_some search ln i se hs] at h ⊢
          simp only [List.mem_singleton] at h ⊢
          omega
        | cons x rest2 =>
          have hr2 : rest2.length ≤ n := by
            simp only [List.length_cons] at hl
            omega
          rw [ctxTested_cons_cons_some search ln x rest2 i se hs] at h ⊢
          simp only [List.mem_cons] at h ⊢
          rcases h with h | h
          · subst h
            rintro (h2 | h2)
            · omega
            · have := ctxTestedMatches_lb search n rest2 hr2 (j + 2) (j + 1) h2
              omega
          · rintro (h2 | h2)
            · have := ctxTestedMatches_lb search n rest2 hr2 (i + 2) j h
              omega
            · exact ih rest2 hr2 (i + 2) j h h2

theorem take_drop_span_ne_nil (ln : Str) (s e : Nat) (h1 : s < e) (h2 : e ≤ ln.length) :
    ((ln.drop s).take (e - s)).isEmpty = false := by
  have hlen : 0 < ((ln.drop s).take (e - s)).length := by
    simp only [List.length_take, List.length_drop]
    omega
  cases hc : (ln.drop s).take (e - s) with
  | nil => rw [hc] at hlen; simp at hlen
  | cons x t => simp

/-- The context-enabled V3 loop emits exactly one match record per tested
matching physical line, provided the stored previous record has an empty
matched slot and the search function returns well-formed nonempty spans. -/
theorem countMatch_grepV3_true (search : Str → Option (Nat × Nat))
    (hv : ∀ ln s e, search ln = some (s, e) → s < e ∧ e ≤ ln.length) :
    ∀ (n : Nat) (l : List Str), l.length ≤ n →
      ∀ (lc i : Nat) (kp : MatchRec), kp.2.2.1 = [] →
        countMatchRecs (grepV3Go search true l lc kp) =
          (ctxTestedMatches search l i).length := by
  intro n
  induction n with
  | zero =>
    intro l hl lc i kp hkp
    have hnil : l = [] := List.eq_nil_of_length_eq_zero (Nat.le_zero.mp hl)
    subst hnil
    simp [grepV3Go, ctxTestedMatches, countMatchRecs]
  | succ n ih =>
    intro l hl lc i kp hkp
    cases l with
    | nil => simp [grepV3Go, ctxTestedMatches, countMatchRecs]
    | cons ln rest =>
      have hr : rest.length ≤ n := by
        simp only [List.length_cons] at hl
        omega
      cases hs : search ln with
      | none =>
        rw [ctxTested_cons_none search ln rest i hs]
        simp only [grepV3Go, hs]
        exact ih rest hr (lc + 1) (i + 1) _ rfl
      | some se =>
        cases se with
        | mk s e =>
          obtain ⟨h1, h2⟩ := hv ln s e hs
          have hb := take_drop_span_ne_nil ln s e h1 h2
          cases rest with
          | nil =>
            rw [ctxTested_singleton_some search ln i (s, e) hs]
            simp [grepV3Go, countMatchRecs, hs, hkp, hb]
          | cons nx rest2 =>
            have hr2 : rest2.length ≤ n := by
              simp only [List.length_cons] at hr
              omega
            rw [ctxTested_cons_cons_some search ln nx rest2 i (s, e) hs]
            simp only [grepV3Go, hs]
            have := ih rest2 hr2 (lc + 1) (i + 2) (lc + 1, ln.dropLast, [], []) rfl
            simp only [countMatchRecs] at this
            simp [countMatchRecs, List.countP_cons, hkp, hb, this]

/-- The context-enabled V5 loop emits exactly one match record per tested
matching physical line, under the same side conditions. -/
theorem countMatch_grepV5_true (search : Str → Option (Nat × Nat))
    (hv : ∀ ln s e, search ln = some (s, e) → s < e ∧ e ≤ ln.length) :
    ∀ (n : Nat) (l : List Str), l.length ≤ n →
      ∀ (lc i : Nat) (prev : MatchRec), prev.2.2.1 = [] →
        countMatchRecs (grepV5Go search true l lc prev) =
          (ctxTestedMatches search l i).length := by
  intro n
  induction n with
  | zero =>
    intro l hl lc i prev hprev
    have hnil : l = [] := List.eq_nil_of_length_eq_zero (Nat.le_zero.mp hl)
    subst hnil
    simp [grepV5Go, ctxTestedMatches, countMatchRecs]
  | succ n ih =>
    intro l hl lc i prev hprev
    cases l with
    | nil => simp [grepV5Go, ctxTestedMatches, countMatchRecs]
    | cons ln rest =>
      have hr : rest.length ≤ n := by
        simp only [List.length_cons] at hl
        omega
      cases hs : search ln with
      | none =>
        rw [ctxTested_cons_none search ln rest i hs]
        simp only [grepV5Go, hs]
        exact ih rest hr (lc + 1) (i + 1) _ rfl
      | some se =>
        cases se with
        | mk s e =>
          obtain ⟨h1, h2⟩ := hv ln s e hs
          have hb := take_drop_span_ne_nil ln s e h1 h2
          cases rest with
          | nil =>
            rw [ctxTested_singleton_some search ln i (s, e) hs]
            by_cases hlc : 1 < lc + 1 <;>
              simp [grepV5Go, countMatchRecs, hs, hprev, hb, hlc]
          | cons nx rest2 =>
            have hr2 : rest2.length ≤ n := by
              simp only [List.length_cons] at hr
              omega
            have := ih rest2 hr2 (lc + 1) (i + 2) (lc + 1, ln, [], []) rfl
            simp only [countMatchRecs] at this
            rw [ctxTested_cons_cons_some search ln nx rest2 i (s, e) hs]
            by_cases hlc : 1 < lc + 1 <;>
              · simp only [grepV5Go, hs, hlc]
                simp [countMatchRecs, List.countP_cons, List.countP_append, hprev, hb,
                  this, hlc]

/-- _skip_dir of cgrep.py and _dirs_to_skip of cgrep5.py (same list). -/
def defaultSkipDirs : List Str :=
  [".hg".toList, ".git".toList, ".svn".toList, "CVS".toList, "RCS".toList, "SCCS".toList]

/-- _skip_ext of cgrep.py. -/
def defaultSkipExtV3 : List Str :=
  [".bin".toList, ".o".toList, ".obj".toList, ".class".toList, ".so".toList,
   ".dynlib".toList, ".dll".toList, ".zip".toList, ".jar".toList, ".gz".toList,
   ".gch".toList, ".pch".toList, ".pdb".toList, ".swp".toList, ".jpg".toList,
   ".ttf".toList]

/-- _files_to_skip of cgrep5.py (shell globs). -/
def defaultFilesToSkipV5 : List Str :=
  ["*.exe".toList, "*.bin".toList, "*.so".toList, "*.dynlib".toList, "*.dll".toList,
   "*.a".toList, "*.o".toList, "*.obj".toList, "*.class".toList, "*.zip".toList,
   "*.jar".toList, "*.gz".toList, "*.gch".toList, "*.pch".toList, "*.pdb".toList,
   "*.swp".toList, "*.icu".toList, "*.jpg".toList, "*.ttf".toList, "*.gif".toList,
   "*png".toList, "*.tiff".toList, "*.ico".toList]

/-- should_skip_dir of cgrep.py (lines 133-150).  The regular expressions of
_extra_skip_re enter as start-anchored predicates paired with their source
text; dirname.find(dn) != -1 is substring containment, modelled through
litSearch. -/
def shouldSkipDirV3 (noSkip : Bool) (skipDir extraSkipDir : List Str)
    (extraSkipRe : List ((Str → Bool) × Str)) (dirname : Str) : Bool × Option Str :=
  if noSkip then (false, none)
  else if dirname ∈ skipDir then (true, none)
  else
    match extraSkipDir.find? (fun dn => (litSearch dn dirname).isSome) with
    | some dn => (true, some dn)
    | none =>
      match extraSkipRe.find? (fun p => p.1 dirname) with
      | some p => (true, some p.2)
      | none => (false, none)

/-- os.path.splitext(name)[1]: the extension starting at the last dot,
empty when there is no dot or when every character before the last dot is
itself a dot (python treats names like ".bashrc" as extensionless). -/
def extOf (name : Str) : Str :=
  let r := name.reverse
  let tl := r.takeWhile (fun c => c ≠ '.')
  match r.drop tl.length with
  | [] => []
  | _ :: before => if before.any (fun c => c ≠ '.') then '.' :: tl.reverse else []

/-- should_skip_file of cgrep.py (lines 152-168).  The _skip_fullfilename
check (os.getcwd() join plus membership, used only for the -o output file)
is abstracted as the predicate fullSkip; it is the constant-false predicate
when _skip_fullfilename is empty. -/
def shouldSkipFileV3 (noSkip : Bool) (fullSkip : Str → Bool)
    (skipExt extraSkipExt : List Str) (name : Str) : Bool :=
  if noSkip then false
  else if fullSkip name then true
  else if extOf name ∈ skipExt then true
  else decide (extOf name ∈ extraSkipExt)

/-- The directory-pruning loop of do_grep and do_glob in cgrep.py (lines
207-214 and 232-239): python iterates over the live list dirs by an internal
index (read element at index i, then advance to i+1) while dirs.remove(name)
deletes the first occurrence of the flagged name from that same list, so the
element that slides into the removed slot is never examined.  The fuel is
the initial length of the list: the index grows by one per step and the list
never grows, so the loop always stops within that many steps and the
fuel-exhausted branch is unreachable. -/
def prunePassAux (skip : Str → Bool) : Nat → List Str → Nat → List Str
  | 0, l, _ => l
  | fuel + 1, l, i =>
    if h : i < l.length then
      let name := l.get ⟨i, h⟩
      if skip name then prunePassAux skip fuel (l.erase name) (i + 1)
      else prunePassAux skip fuel l (i + 1)
    else l

/-- The dirs list as cgrep.py leaves it after its pruning loop. -/
def prunePass (skip : Str → Bool) (l : List Str) : List Str :=
  prunePassAux skip l.length l 0

/-- dirlist_filter of cgrep5.py (lines 137-141). -/
def dirlistFilter (dirsToSkip dirlist : List Str) : List Str :=
  if dirsToSkip.isEmpty then dirlist
  else dirlist.filter (fun x => !(dirsToSkip.contains x))

/-- Shell-glob matching engine behind fnmatch: star matches any sequence,
question mark any single character, other characters literally (character
classes are not modelled; no input below uses them).  Every recursive call
strictly decreases p.length + s.length, so the fuel used by globMatch can
never run out and the fuel-exhausted branch is unreachable. -/
def globMatchF : Nat → Str → Str → Bool
  | 0, _, _ => false
  | fuel + 1, p, s =>
    match p, s with
    | [], s2 => s2.isEmpty
    | '*' :: p2, s2 =>
      globMatchF fuel p2 s2 ||
        (match s2 with
         | [] => false
         | _ :: s3 => globMatchF fuel ('*' :: p2) s3)
    | _ :: _, [] => false
    | c :: p2, x :: s3 => (c == '?' || c == x) && globMatchF fuel p2 s3

/-- fnmatch.fnmatch on a posix system (normcase is the identity there). -/
def globMatch (p s : Str) : Bool := globMatchF (p.length + s.length + 1) p s

/-- re.compile(fnmatch.translate(pat)).search(name): the translated pattern
is anchored only at the end of the name, so searching allows the glob to
start at any offset of the name. -/
def globSearch (pat name : Str) : Bool :=
  (List.range (name.length + 1)).any (fun i => globMatch pat (name.drop i))

/-- filelist_filter of cgrep5.py (lines 143-153): keep the files accepted by
fnmatch.filter for the file pattern, then drop every file matching some glob
of the skip list (when that list is nonempty). -/
def filelistFilter (filesToSkip filelist : List Str) (filepattern : Str) : List Str :=
  let outlist := filelist.filter (fun f => globMatch filepattern f)
  if filesToSkip.isEmpty then outlist
  else outlist.filter (fun f => !(filesToSkip.any (fun p => globMatch p f)))

/-- A directory tree: named subdirectories and plain file names. -/
inductive FS : Type
  | mk : List (Str × FS) → List Str → FS

/-- The files that do_grep of cgrep.py (lines 204-227) reaches with its
per-file action during the os.walk traversal rooted at root: the current
files of the current directory pass the file pattern and the file-skip check; recursion
descends exactly into the subdirectories that survive the pruning loop, in
list order (os.walk with topdown=True recurses into the mutated dirs list).
The fuel bounds the recursion depth; any fuel at least the tree height gives
the complete walk. -/
def walkVisitedV3 (dirSkip filePred fileSkip : Str → Bool) :
    Nat → Str → FS → List Str
  | 0, _, _ => []
  | fuel + 1, root, FS.mk subdirs files =>
    let kept := prunePass dirSkip (subdirs.map Prod.fst)
    (files.filter (fun n => filePred n && !(fileSkip n))).map (fun n => root ++ '/' :: n) ++
      (subdirs.filter (fun p => p.1 ∈ kept)).flatMap
        (fun p => walkVisitedV3 dirSkip filePred fileSkip fuel (root ++ '/' :: p.1) p.2)

/-- The files that do_grep of cgrep5.py (lines 174-185) reaches with
grep_file: dirs is replaced by dirlist_filter, files by filelist_filter. -/
def walkVisitedV5 (dirsToSkip filesToSkip : List Str) (filepat : Str) :
    Nat → Str → FS → List Str
  | 0, _, _ => []
  | fuel + 1, root, FS.mk subdirs files =>
    let kept := dirlistFilter dirsToSkip (subdirs.map Prod.fst)
    (filelistFilter filesToSkip files filepat).map (fun n => root ++ '/' :: n) ++
      (subdirs.filter (fun p => p.1 ∈ kept)).flatMap
        (fun p => walkVisitedV5 dirsToSkip filesToSkip filepat fuel (root ++ '/' :: p.1) p.2)

/-- Case folding used to model the IGNORECASE flag for literal patterns. -/
def lowerStr (s : Str) : Str := s.map Char.toLower

/-- re.compile(pattern, flags).search for a literal pattern: with IGNORECASE
both the pattern and the scanned text are case-folded. -/
def compileText (pat : Str) (icase : Bool) : Str → Option (Nat × Nat) :=
  fun s => if icase then litSearch (lowerStr pat) (lowerStr s) else litSearch pat s

/-- re.compile(fnmatch.translate(glob), flags).search as a name predicate;
with IGNORECASE both sides would be case-folded. -/
def compileFileGlobV3 (pat : Str) (icase : Bool) : Str → Bool :=
  fun name =>
    if icase then globSearch (lowerStr pat) (lowerStr name) else globSearch pat name

/-- The grep branch of cgrep.py __main__ (lines 430-448), reduced to the two
data its claims need: the compiled text matcher and the list of files
selected for scanning.  Mirroring lines 442-446, the text pattern is
compiled with _arg_re_flags (the icase argument) while the file pattern is
compiled with flags fixed to 0, so only the first component depends on
icase. -/
def grepModeV3 (icase : Bool) (textPat globPat : Str) (dirSkip fileSkip : Str → Bool)
    (fuel : Nat) (root : Str) (t : FS) : (Str → Option (Nat × Nat)) × List Str :=
  (compileText textPat icase,
   walkVisitedV3 dirSkip (compileFileGlobV3 globPat false) fileSkip fuel root t)

/-- The grep branch of cgrep5.py __main__ (lines 290-301): the text pattern
is compiled with _re_flags, while file selection goes through fnmatch (via
filelist_filter), which never sees any flag. -/
def grepModeV5 (icase : Bool) (textPat filePatGlob : Str)
    (dirsToSkip filesToSkip : List Str) (fuel : Nat) (root : Str) (t : FS) :
    (Str → Option (Nat × Nat)) × List Str :=
  (compileText textPat icase,
   walkVisitedV5 dirsToSkip filesToSkip filePatGlob fuel root t)

/-- str.split(sep, ...): split off the part before the first sep. -/
def splitOnce (sep : Char) : Str → Option (Str × Str)
  | [] => none
  | c :: t =>
    if c = sep then some ([], t)
    else (splitOnce sep t).map (fun p => (c :: p.1, p.2))

/-- python p.split(sep, maxsplit): at most maxsplit splits. -/
def splitN (sep : Char) : Nat → Str → List Str
  | 0, s => [s]
  | k + 1, s =>
    match splitOnce sep s with
    | none => [s]
    | some (a, rest) => a :: splitN sep k rest

/-- python t[1:-1]. -/
def slice1m1 (t : Str) : Str := (t.drop 1).dropLast

/-- python t[1:-3]. -/
def slice1m3 (t : Str) : Str := (t.drop 1).take (t.length - 4)

/-- python t.endswith(the two characters semicolon, double quote). -/
def endsWithSemiQuote (t : Str) : Bool := t.drop (t.length - 2) == [';', '\x22']

/-- tagpattern.replace("(", backslash-paren).replace(")", ...): escape every
parenthesis with a backslash. -/
def escapeParens (t : Str) : Str :=
  t.flatMap (fun c =>
    if c = '(' then ['\\', '(']
    else if c = ')' then ['\\', ')']
    else [c])

/-- parse_tag_line of cgrep.py (lines 251-281).  Comment lines, wrong field
counts, wrong scopes and wrong identifiers are rejected (None in the
source).  The third component of the result is the pattern STRING handed to
re.compile at line 276; note that line 276 slices tagpattern[1:-3] a second
time, after line 271 already stripped the excommand delimiters.
p_ident_re.match is start-anchored and enters as the predicate identMatch.
An empty scope field would raise IndexError in the source; it cannot arise
for lines read off a file (they end in a newline) and is modelled as a
rejection.  re.compile failure (also a rejection in the source) does not
arise for the literal patterns used below. -/
def parseTagLine (pLn : Str) (pScope : Char) (identMatch : Str → Bool) :
    Option (Str × Str × Str) :=
  if pLn.take 1 = ['!'] then none
  else
    match splitN '\t' 3 pLn with
    | [tagname, srcfile, tagpattern0, scopeField] =>
      match scopeField with
      | [] => none
      | sc :: _ =>
        if sc ≠ pScope then none
        else if !identMatch tagname then none
        else
          let tp1 := if endsWithSemiQuote tagpattern0 then slice1m3 tagpattern0
                     else slice1m1 tagpattern0
          some (tagname, srcfile, slice1m3 (escapeParens tp1))
    | _ => none

/-- "%s:%04d" % (_, n): decimal digits left-padded with zeros to width 4. -/
def pad4 (n : Nat) : Str :=
  let d := Nat.toDigits 10 n
  List.replicate (4 - d.length) '0' ++ d

/-- The dict key "%s:%04d" % (srcfile, n) of do_ctags (line 293). -/
def tagKey (srcfile : Str) (n : Nat) : Str := srcfile ++ ':' :: pad4 n

/-- dict assignment d[k] = v: replace the binding in place when the key
exists, otherwise append a new binding. -/
def upsert (m : List (Str × MatchRec)) (k : Str) (v : MatchRec) :
    List (Str × MatchRec) :=
  if m.any (fun p => p.1 == k) then m.map (fun p => if p.1 == k then (k, v) else p)
  else m ++ [(k, v)]

/-- dict lookup. -/
def lookupKey (m : List (Str × MatchRec)) (k : Str) : Option MatchRec :=
  (m.find? (fun p => p.1 == k)).map Prod.snd

/-- The python strict lexicographic comparison of strings by character code. -/
def strLt : Str → Str → Bool
  | [], [] => false
  | [], _ :: _ => true
  | _ :: _, [] => false
  | a :: as, b :: bs => decide (a < b) || (a == b && strLt as bs)

def strLe (a b : Str) : Bool := strLt a b || a == b

/-- Insertion into a strLe-sorted list. -/
def insertSorted (x : Str) : List Str → List Str
  | [] => [x]
  | y :: ys => if strLe x y then x :: y :: ys else y :: insertSorted x ys

/-- python sorted() on strings; on the pairwise distinct keys of a dict any
comparison-based sort produces this list. -/
def sortKeys (l : List Str) : List Str := l.foldr insertSorted []

/-- One printed item of a walk or of the tag output. -/
inductive OutItem : Type
  | header : Str → OutItem
  | line : MatchRec → OutItem
  | diag : Str → Str → OutItem
  deriving DecidableEq

/-- The output loop of do_ctags (cgrep.py lines 295-301): keys in sorted
order; key.split(":")[0] — the part of the key before its first colon — is
printed as a file header whenever it differs from the previously kept one. -/
def ctagsEmit (found : List (Str × MatchRec)) : List Str → Option Str → List OutItem
  | [], _ => []
  | k :: rest, kept =>
    let fn := k.takeWhile (fun c => c ≠ ':')
    (if some fn = kept then [] else [OutItem.header fn]) ++
      (match lookupKey found k with
       | some r => [OutItem.line r]
       | none => []) ++ ctagsEmit found rest (some fn)

/-- do_ctags of cgrep.py (lines 283-301) over a pure filesystem map fs from
file name to file lines: every accepted tag entry greps its source file with
the compiled (double-sliced) pattern under grep_file, records land in a dict
keyed by "%s:%04d" % (srcfile, line), and the dict is finally emitted in
sorted-key order.  Context mode is off (the global _arg_context defaults to
false) and tag patterns below are literal, so litSearch models their
compiled form.  A missing source file raises IOError in the source and
aborts do_ctags; fs is total here, so that path is out of scope. -/
def doCtags (fs : Str → List Str) (tagLines : List Str) (scope : Char)
    (identMatch : Str → Bool) : List OutItem :=
  let found := tagLines.foldl
    (fun m ln =>
      match parseTagLine ln scope identMatch with
      | none => m
      | some (_, srcfile, patStr) =>
        (grepFileV3 false (litSearch patStr) (fs srcfile)).foldl
          (fun m2 r => upsert m2 (tagKey srcfile r.1) r) m)
    []
  ctagsEmit found (sortKeys (found.map Prod.fst)) none

/-- The per-file loop of do_grep in cgrep5.py (lines 179-185), over an
association of file path to either its lines or the exception message that
opening or reading it raises: a failing file is reported as exactly one
diagnostic tagged with its path (report_exception), a successful file prints
its header followed by its records when any line matched
(print_good_lines). -/
def doGrepFilesV5 (search : Str → Option (Nat × Nat)) (ctx : Bool) :
    List (Str × Except Str (List Str)) → List OutItem
  | [] => []
  | (fn, Except.error e) :: rest => OutItem.diag fn e :: doGrepFilesV5 search ctx rest
  | (fn, Except.ok lns) :: rest =>
    let gl := grepFileV5 ctx search lns
    (if gl.isEmpty then [] else OutItem.header fn :: gl.map OutItem.line) ++
      doGrepFilesV5 search ctx rest

/-- The per-file try/except of do_grep in cgrep.py (lines 220-227), same
shape with the V3 scanner; the file-pattern and skip filters have already
been applied to the list. -/
def doGrepFilesV3 (search : Str → Option (Nat × Nat)) (ctx : Bool) :
    List (Str × Except Str (List Str)) → List OutItem
  | [] => []
  | (fn, Except.error e) :: rest => OutItem.diag fn e :: doGrepFilesV3 search ctx rest
  | (fn, Except.ok lns) :: rest =>
    let gl := grepFileV3 ctx search lns
    (if gl.isEmpty then [] else OutItem.header fn :: gl.map OutItem.line) ++
      doGrepFilesV3 search ctx rest

/-- The three skip modes of cgrep5.py. -/
inductive SkipMode : Type
  | ENABLED : SkipMode
  | OVERRIDE : SkipMode
  | DISABLED : SkipMode
  deriving DecidableEq

/-- manage_skip_lists of cgrep5.py (lines 200-218), with the configuration
read modelled as cfg: the concatenated lines of every existing skiplist
file, each with its trailing newline.  DISABLED clears only the directory
list (the file-list branch below it is an elif and is unreachable for
DISABLED); OVERRIDE clears the file list; ENABLED appends each config line
stripped of its last character (ln[:-1]) to the file list. -/
def manageSkipListsV5 (mode : SkipMode) (dirsToSkip filesToSkip : List Str)
    (cfg : List Str) : List Str × List Str :=
  match mode with
  | SkipMode.DISABLED => ([], filesToSkip)
  | SkipMode.OVERRIDE => (dirsToSkip, [])
  | SkipMode.ENABLED => (dirsToSkip, filesToSkip ++ cfg.map List.dropLast)

/-- The skip-from-file application of cgrep.py __main__ (lines 390-403): the
entries accumulated from the skip files, when nonempty, REPLACE the built-in
default list as list(set(fskip)); list(set(..)) is modelled as dedup, which
has the same membership (cgrep.py has no override flag: this replacement is
unconditional). -/
def overrideSkipV3 (defaults fskip : List Str) : List Str :=
  if fskip.length > 0 then fskip.dedup else defaults

/-- A nonempty literal pattern always yields a well-formed nonempty span. -/
theorem litSearch_valid (pat : Str) (hp : pat ≠ []) :
    ∀ ln s e, litSearch pat ln = some (s, e) → s < e ∧ e ≤ ln.length := by
  intro ln s e h
  obtain ⟨he, hpre, _⟩ := litSearch_some pat ln s e h
  subst he
  have hlenpos : 0 < pat.length := List.length_pos.mpr hp
  have hle := (List.isPrefixOf_iff_prefix.mp hpre).length_le
  rw [List.length_drop] at hle
  omega

theorem doGrepFilesV5_append (search : Str → Option (Nat × Nat)) (ctx : Bool) :
    ∀ (xs ys : List (Str × Except Str (List Str))),
      doGrepFilesV5 search ctx (xs ++ ys) =
        doGrepFilesV5 search ctx xs ++ doGrepFilesV5 search ctx ys := by
  intro xs
  induction xs with
  | nil => intro ys; rfl
  | cons x rest ih =>
    intro ys
    match x with
    | (fn, Except.error e) => simp [doGrepFilesV5, ih]
    | (fn, Except.ok lns) => simp [doGrepFilesV5, ih]

theorem doGrepFilesV3_append (search : Str → Option (Nat × Nat)) (ctx : Bool) :
    ∀ (xs ys : List (Str × Except Str (List Str))),
      doGrepFilesV3 search ctx (xs ++ ys) =
        doGrepFilesV3 search ctx xs ++ doGrepFilesV3 search ctx ys := by
  intro xs
  induction xs with
  | nil => intro ys; rfl
  | cons x rest ih =>
    intro ys
    match x with
    | (fn, Except.error e) => simp [doGrepFilesV3, ih]
    | (fn, Except.ok lns) => simp [doGrepFilesV3, ih]

/-- The directory tree of the C1 evaluation: two version-control
subdirectories, of which .hg holds a file, plus one top-level file. -/
def demoTree : FS :=
  FS.mk [(".git".toList, FS.mk [] []),
         (".hg".toList, FS.mk [] ["secret.txt".toList])] ["top.c".toList]

/-- The sample file of the round-trip scenario in the specification. -/
def sampleLines : List Str :=
  ["foo\n".toList, "bar baz\n".toList, "foo qux\n".toList]

/-- Claim C1.  The claim says a skip-marked directory is never descended.
cgrep.py violates it: its pruning loop removes entries from dirs while
iterating over dirs, so the entry sliding into a removed slot is never
examined.  Concretely, both .git and .hg are marked by should_skip_dir (the
first conjunct), yet the pruning pass leaves .hg in the walked list (second
conjunct) and the walk of cgrep.py reaches ./.hg/secret.txt with its per-file
action (third and fourth conjuncts), while dirlist_filter of cgrep5.py prunes
both and never reaches it (last conjunct). -/
theorem claim1_skipped_dir_descended :
    (shouldSkipDirV3 false defaultSkipDirs [] [] (".hg".toList)).1 = true ∧
    prunePass (fun d => (shouldSkipDirV3 false defaultSkipDirs [] [] d).1)
        [".git".toList, ".hg".toList] = [".hg".toList] ∧
    walkVisitedV3 (fun d => (shouldSkipDirV3 false defaultSkipDirs [] [] d).1)
        (compileFileGlobV3 ("*".toList) false)
        (shouldSkipFileV3 false (fun _ => false) defaultSkipExtV3 [])
        3 (".".toList) demoTree =
      ["./top.c".toList, "./.hg/secret.txt".toList] ∧
    "./.hg/secret.txt".toList ∈
      walkVisitedV3 (fun d => (shouldSkipDirV3 false defaultSkipDirs [] [] d).1)
        (compileFileGlobV3 ("*".toList) false)
        (shouldSkipFileV3 false (fun _ => false) defaultSkipExtV3 [])
        3 (".".toList) demoTree ∧
    walkVisitedV5 defaultSkipDirs [] ("*".toList) 3 (".".toList) demoTree =
      ["./top.c".toList] := by decide

/-- Claim C2, counterexample.  With context mode on, the record emitted
immediately before a match record is the previously TESTED line, not the
previous physical line: on the file a/x/a (pattern a) the match on physical
line 3 is preceded by the record (1, "a(newline)", _, _) holding line 1 and
not line 2 ("x..."), because line 2 was consumed as the after-context of the
first match.  Moreover cgrep.py emits the placeholder (0, "", "", "") before
a match on the very first line. -/
theorem claim2_counterexample :
    grepFileV5 true (litSearch ['a'])
        ["a\n".toList, "x\n".toList, "a\n".toList] =
      [(1, [], ['a'], []), (2, "x\n".toList, [], []), (1, "a\n".toList, [], []),
       (2, [], ['a'], []), (3, [], [], [])] ∧
    (grepFileV5 true (litSearch ['a'])
        ["a\n".toList, "x\n".toList, "a\n".toList]).get? 2 =
      some (1, "a\n".toList, [], []) ∧
    "a\n".toList ≠ "x\n".toList ∧
    grepFileV3 true (litSearch ['a']) ["a\n".toList] =
      [(0, [], [], []), (1, [], ['a'], []), (2, [], [], [])] ∧
    (grepFileV3 true (litSearch ['a']) ["a\n".toList]).get? 0 ≠
      some (1, [], ['a'], []) := by
  refine ⟨by decide, by decide, by decide, by decide, by decide⟩

/-- Claim C2, amended.  With context mode enabled, each tested matching line
contributes one contiguous block: first the stored previous-record (for
cgrep5.py only when the line counter exceeds 1; for cgrep.py always, the
initial placeholder (0, "", "", "") included), then the match record, then
the following physical line as an after-context record — an empty record
when the match is on the last line — and that following line is consumed
without being tested.  The stored previous-record holds the most recently
tested line, which is the previous physical line exactly when that line was
not itself consumed as an earlier after-context. -/
theorem claim2_context_blocks (search : Str → Option (Nat × Nat)) (lines : List Str) :
    grepFileV3 true search lines = ctxBlocksV3 search lines 0 (0, [], [], []) ∧
    grepFileV5 true search lines = ctxBlocksV5 search lines 0 (0, [], [], []) := by
  constructor
  · exact grepV3Go_true search lines.length lines (Nat.le_refl _) 0 (0, [], [], [])
  · exact grepV5Go_true search lines.length lines (Nat.le_refl _) 0 (0, [], [], [])

/-- Claim C3.  With context disabled, a scan with a literal pattern returns
exactly one record per matching line: the record count is the number of
matching lines, the reported line numbers strictly increase (in both
versions, which report the same line numbers), and every record originates
from the leftmost occurrence of the pattern on its line — its split point s
carries the pattern as a prefix of the tail of the line while no earlier offset
does. -/
theorem claim3_scan_exact_records (pat : Str) (lines : List Str) :
    (grepFileV5 false (litSearch pat) lines).length =
        lines.countP (fun ln => (litSearch pat ln).isSome) ∧
    ((grepFileV5 false (litSearch pat) lines).map Prod.fst).Pairwise (· < ·) ∧
    (grepFileV3 false (litSearch pat) lines).map Prod.fst =
        (grepFileV5 false (litSearch pat) lines).map Prod.fst ∧
    ∀ r ∈ grepFileV5 false (litSearch pat) lines,
      ∃ i, ∃ hi : i < lines.length, ∃ s,
        litSearch pat (lines.get ⟨i, hi⟩) = some (s, s + pat.length) ∧
        r = mkMatchV5 (i + 1) (lines.get ⟨i, hi⟩) s (s + pat.length) ∧
        pat.isPrefixOf ((lines.get ⟨i, hi⟩).drop s) = true ∧
        ∀ j, j < s → pat.isPrefixOf ((lines.get ⟨i, hi⟩).drop j) = false := by
  refine ⟨?_, ?_, ?_, ?_⟩
  · rw [grepFileV5, grepV5Go_false, length_noCtxRecsV5]
  · rw [grepFileV5, grepV5Go_false, map_fst_noCtxRecsV5]
    exact matchLineNums_sorted _ _ _
  · rw [grepFileV3, grepFileV5, grepV3Go_false, grepV5Go_false,
      map_fst_noCtxRecsV3, map_fst_noCtxRecsV5]
  · intro r hr
    rw [grepFileV5, grepV5Go_false] at hr
    obtain ⟨i, hi, s, e, h1, h2⟩ := mem_noCtxRecsV5 _ lines 0 r hr
    obtain ⟨he, hpre, hmin⟩ := litSearch_some pat _ s e h1
    subst he
    simp only [Nat.zero_add] at h2
    exact ⟨i, hi, s, h1, h2, hpre, fun j hj => hmin j hj⟩

/-- Claim C3, witness: the round-trip file of the specification with pattern foo
has two matching lines and two records, and the record of line 1 originates
from the leftmost occurrence of foo on that line. -/
theorem claim3_witness :
    (grepFileV5 false (litSearch ("foo".toList)) sampleLines).length =
        sampleLines.countP (fun ln => (litSearch ("foo".toList) ln).isSome) ∧
    (∃ i, ∃ hi : i < sampleLines.length, ∃ s,
      litSearch ("foo".toList) (sampleLines.get ⟨i, hi⟩) =
          some (s, s + ("foo".toList).length) ∧
      ((1, [], "foo".toList, []) : MatchRec) =
          mkMatchV5 (i + 1) (sampleLines.get ⟨i, hi⟩) s (s + ("foo".toList).length) ∧
      ("foo".toList).isPrefixOf ((sampleLines.get ⟨i, hi⟩).drop s) = true ∧
      ∀ j, j < s →
        ("foo".toList).isPrefixOf ((sampleLines.get ⟨i, hi⟩).drop j) = false) := by
  have h := claim3_scan_exact_records ("foo".toList) sampleLines
  exact ⟨h.1, h.2.2.2 (1, [], "foo".toList, []) (by decide)⟩

/-- Claim C4.  A rendered prefix longer than 40 characters is the ellipsis
marker followed by exactly its last 40 characters; a rendered suffix longer
than 40 characters is exactly its first 40 characters followed by the
ellipsis marker; parts of at most 40 characters render verbatim; and
truncation never changes which lines are detected as matches: the truncating
V3 scanner and the untruncated V5 scanner report the same line numbers for
every search function. -/
theorem claim4_truncation (a c : Str) (n : Nat) (b : Str)
    (search : Str → Option (Nat × Nat)) (lines : List Str) :
    (a.length > 40 →
      truncA a = ellipsis ++ a.drop (a.length - 40) ∧
        (a.drop (a.length - 40)).length = 40) ∧
    (a.length ≤ 40 → truncA a = a) ∧
    (c.length > 40 →
      truncC c = c.take 40 ++ ellipsis ∧ (c.take 40).length = 40) ∧
    (c.length ≤ 40 → truncC c = c) ∧
    (b ≠ [] ∨ c ≠ [] → renderPartsV5 (n, a, b, c) = (n, truncA a, b, truncC c)) ∧
    (grepFileV3 false search lines).map Prod.fst =
      (grepFileV5 false search lines).map Prod.fst := by
  refine ⟨?_, ?_, ?_, ?_, ?_, ?_⟩
  · intro h
    constructor
    · simp only [truncA, maxLinePart]
      rw [if_pos h]
    · rw [List.length_drop]
      omega
  · intro h
    simp only [truncA, maxLinePart]
    rw [if_neg (by omega)]
  · intro h
    constructor
    · simp only [truncC, maxLinePart]
      rw [if_pos h]
    · rw [List.length_take]
      omega
  · intro h
    simp only [truncC, maxLinePart]
    rw [if_neg (by omega)]
  · intro h
    simp [renderPartsV5, h]
  · rw [grepFileV3, grepFileV5, grepV3Go_false, grepV5Go_false,
      map_fst_noCtxRecsV3, map_fst_noCtxRecsV5]

/-- Claim C4, witness: a 41-character prefix renders as the ellipsis plus
its last 40 characters, a 41-character suffix as its first 40 plus the
ellipsis, 2-character parts render verbatim, and print_good_lines applies
exactly these truncations to a highlighted record. -/
theorem claim4_witness :
    (truncA (List.replicate 41 'x') =
        ellipsis ++ (List.replicate 41 'x').drop ((List.replicate 41 'x').length - 40) ∧
      ((List.replicate 41 'x').drop ((List.replicate 41 'x').length - 40)).length = 40) ∧
    truncA ("ab".toList) = "ab".toList ∧
    (truncC (List.replicate 41 'y') = (List.replicate 41 'y').take 40 ++ ellipsis ∧
      ((List.replicate 41 'y').take 40).length = 40) ∧
    truncC ("cd".toList) = "cd".toList ∧
    renderPartsV5 (7, List.replicate 41 'x', ['m'], List.replicate 41 'y') =
      (7, truncA (List.replicate 41 'x'), ['m'], truncC (List.replicate 41 'y')) := by
  have h1 := claim4_truncation (List.replicate 41 'x') (List.replicate 41 'y')
    7 ['m'] (litSearch ['a']) []
  have h2 := claim4_truncation ("ab".toList) ("cd".toList) 7 ['m'] (litSearch ['a']) []
  exact ⟨h1.1 (by decide), h2.2.1 (by decide), h1.2.2.1 (by decide),
    h2.2.2.2.1 (by decide), h1.2.2.2.2.1 (by decide)⟩

/-- Claim C5.  The claim says tag-mode records are emitted sorted by
(sourceFile, lineNumber).  do_ctags instead sorts the concatenated string
keys "%s:%04d": with source files a and a!b (each contributing line 1), the
key "a!b:0001" sorts before "a:0001" although the file name a precedes a!b
(second conjunct), so the emission starts with a!b — not sorted by source
file.  Deduplication by (file, line) does hold: two tag entries resolving to
the same file and line collapse to a single emitted record (last
conjunct). -/
theorem claim5_key_sort_eval :
    doCtags
        (fun f => if f = "a".toList then ["qq\n".toList]
                  else if f = "a!b".toList then ["qq\n".toList] else [])
        ["t1\ta\t/aqqzzz/\tf\n".toList, "t2\ta!b\t/aqqzzz/\tf\n".toList] 'f'
        (fun t => (['t']).isPrefixOf t) =
      [OutItem.header ("a!b".toList), OutItem.line (1, [], "qq".toList, []),
       OutItem.header ("a".toList), OutItem.line (1, [], "qq".toList, [])] ∧
    strLt ("a".toList) ("a!b".toList) = true ∧
    doCtags
        (fun f => if f = "a".toList then ["qq\n".toList] else [])
        ["t1\ta\t/aqqzzz/\tf\n".toList, "t3\ta\t/aqqzzz/\tf\n".toList] 'f'
        (fun t => (['t']).isPrefixOf t) =
      [OutItem.header ("a".toList), OutItem.line (1, [], "qq".toList, [])] := by
  decide

/-- Claim C6.  The claim says the tag line for main compiles the pattern
caret-int-main-escaped-parens-dollar.  parse_tag_line strips and escapes the
excommand correctly at lines 271-273, but line 276 slices the pattern [1:-3]
a second time before compiling, chopping the leading caret and the trailing
escaped-close-paren-dollar: the compiled pattern string is int main\(void,
not ^int main\(void\)$. -/
theorem claim6_double_slice_eval :
    parseTagLine ("main\tmain.c\t/^int main(void)$/;\"\tf\n".toList) 'f'
        (fun t => ("main".toList).isPrefixOf t) =
      some ("main".toList, "main.c".toList, "int main\\(void".toList) ∧
    "int main\\(void".toList ≠ "^int main\\(void\\)$".toList := by decide

/-- Claim C7, counterexample.  In cgrep.py a nonempty skip list read from
configuration files REPLACES the built-in defaults instead of extending
them: with the config entry build, the resulting directory skip list is
exactly [build] and the default entry .hg is no longer in it, although no
override mode exists (or was requested) in that version. -/
theorem claim7_counterexample :
    overrideSkipV3 defaultSkipDirs ["build".toList] = ["build".toList] ∧
    ".hg".toList ∈ defaultSkipDirs ∧
    ".hg".toList ∉ overrideSkipV3 defaultSkipDirs ["build".toList] := by decide

/-- Claim C7, amended.  In cgrep5.py the configuration entries are appended
to the built-in defaults (newline stripped, defaults preserved) unless an
override or disable mode is requested — override clears the file-skip list.
In cgrep.py, by contrast, a nonempty configuration list unconditionally
replaces the defaults (its membership becomes exactly the config
entries). -/
theorem claim7_config_append (d f cfg : List Str) :
    (manageSkipListsV5 SkipMode.ENABLED d f cfg).1 = d ∧
    (manageSkipListsV5 SkipMode.ENABLED d f cfg).2 = f ++ cfg.map List.dropLast ∧
    (∀ x ∈ f, x ∈ (manageSkipListsV5 SkipMode.ENABLED d f cfg).2) ∧
    (manageSkipListsV5 SkipMode.OVERRIDE d f cfg).2 = [] ∧
    (∀ fskip : List Str, fskip ≠ [] →
      ∀ x, x ∈ overrideSkipV3 d fskip ↔ x ∈ fskip) := by
  refine ⟨rfl, rfl, ?_, rfl, ?_⟩
  · intro x hx
    simp [manageSkipListsV5]
    exact Or.inl hx
  · intro fskip hne x
    have hpos : fskip.length > 0 := List.length_pos.mpr hne
    rw [overrideSkipV3, if_pos hpos]
    exact List.mem_dedup

/-- Claim C7, witness: with the default lists and the single config line
build, the default glob *.o stays in the cgrep5 file-skip list, and build is
in the cgrep.py replacement list. -/
theorem claim7_witness :
    "*.o".toList ∈
      (manageSkipListsV5 SkipMode.ENABLED defaultSkipDirs defaultFilesToSkipV5
        ["build\n".toList]).2 ∧
    ("build".toList ∈ overrideSkipV3 defaultSkipDirs ["build".toList] ↔
      "build".toList ∈ ["build".toList]) := by
  have h := claim7_config_append defaultSkipDirs defaultFilesToSkipV5 ["build\n".toList]
  exact ⟨h.2.2.1 ("*.o".toList) (by decide),
    h.2.2.2.2 ["build".toList] (by decide) ("build".toList)⟩

/-- Claim C8.  A file whose open or read raises is reported as exactly one
diagnostic tagged with its path, in place, and the per-file loop continues
unchanged with the remaining files: splitting the file list around a failing
file splits the output around that single diagnostic, in both versions. -/
theorem claim8_io_error_per_file (search : Str → Option (Nat × Nat)) (ctx : Bool)
    (pre post : List (Str × Except Str (List Str))) (fn e : Str) :
    doGrepFilesV5 search ctx (pre ++ (fn, Except.error e) :: post) =
      doGrepFilesV5 search ctx pre ++
        OutItem.diag fn e :: doGrepFilesV5 search ctx post ∧
    doGrepFilesV3 search ctx (pre ++ (fn, Except.error e) :: post) =
      doGrepFilesV3 search ctx pre ++
        OutItem.diag fn e :: doGrepFilesV3 search ctx post := by
  constructor
  · rw [doGrepFilesV5_append]
    rfl
  · rw [doGrepFilesV3_append]
    rfl

/-- Claim C9.  With context mode enabled, the physical line immediately
following a tested matching line is consumed as the after-context record and
never tested, so it never produces a match record: the tested-match indices
never contain two consecutive values; and when the search function returns
well-formed nonempty spans, the match records of both scanners (records with
nonempty matched text) are in bijection with the tested matching lines —
one match record per tested match, so the consumed successor line yields
none. -/
theorem claim9_after_context_not_matched (search : Str → Option (Nat × Nat))
    (lines : List Str) :
    (∀ j, j ∈ ctxTestedMatches search lines 0 →
      j + 1 ∉ ctxTestedMatches search lines 0) ∧
    ((∀ ln s e, search ln = some (s, e) → s < e ∧ e ≤ ln.length) →
      countMatchRecs (grepFileV3 true search lines) =
          (ctxTestedMatches search lines 0).length ∧
      countMatchRecs (grepFileV5 true search lines) =
          (ctxTestedMatches search lines 0).length) := by
  constructor
  · intro j hj
    exact ctxTestedMatches_no_succ search lines.length lines (Nat.le_refl _) 0 j hj
  · intro hv
    constructor
    · exact countMatch_grepV3_true search hv lines.length lines (Nat.le_refl _)
        0 0 (0, [], [], []) rfl
    · exact countMatch_grepV5_true search hv lines.length lines (Nat.le_refl _)
        0 0 (0, [], [], []) rfl

/-- Claim C9, witness: on the file a/a/x with pattern a, line 0 is a tested
match, its successor line 1 (which also matches the pattern) is not, and
each scanner emits exactly one match record. -/
theorem claim9_witness :
    (1 ∉ ctxTestedMatches (litSearch ['a'])
        ["a\n".toList, "a\n".toList, "x\n".toList] 0) ∧
    countMatchRecs (grepFileV3 true (litSearch ['a'])
        ["a\n".toList, "a\n".toList, "x\n".toList]) =
      (ctxTestedMatches (litSearch ['a'])
        ["a\n".toList, "a\n".toList, "x\n".toList] 0).length ∧
    countMatchRecs (grepFileV5 true (litSearch ['a'])
        ["a\n".toList, "a\n".toList, "x\n".toList]) =
      (ctxTestedMatches (litSearch ['a'])
        ["a\n".toList, "a\n".toList, "x\n".toList] 0).length := by
  have h := claim9_after_context_not_matched (litSearch ['a'])
    ["a\n".toList, "a\n".toList, "x\n".toList]
  have hv := h.2 (litSearch_valid ['a'] (by decide))
  exact ⟨h.1 0 (by decide), hv.1, hv.2⟩

/-- Claim C10.  The set of files selected for content scanning is
independent of the case-insensitivity flag: in both versions the flag enters
only the compilation of the text pattern (first component), never the file
pattern — cgrep.py compiles its translated file glob with flags fixed to 0
and cgrep5.py filters file names through fnmatch, which takes no flags — so
two runs differing only in the flag select identical file lists, while the
same flag demonstrably changes text matching. -/
theorem claim10_selection_ignores_icase (i1 i2 : Bool) (textPat globPat : Str)
    (dirSkip fileSkip : Str → Bool) (dirsToSkip filesToSkip : List Str)
    (fuel : Nat) (root : Str) (t : FS) :
    (grepModeV3 i1 textPat globPat dirSkip fileSkip fuel root t).2 =
      (grepModeV3 i2 textPat globPat dirSkip fileSkip fuel root t).2 ∧
    (grepModeV5 i1 textPat globPat dirsToSkip filesToSkip fuel root t).2 =
      (grepModeV5 i2 textPat globPat dirsToSkip filesToSkip fuel root t).2 ∧
    compileText ("A".toList) true ("xa".toList) = some (1, 2) ∧
    compileText ("A".toList) false ("xa".toList) = none := by
  exact ⟨rfl, rfl, by decide, by decide⟩

end Cgrep
